import Mathlib

/-!
Shallow embedding of the live-polling server (`src/server.js`).

JavaScript `Map`s are modelled as insertion-ordered association lists:
`set` updates an existing key in place or appends a fresh one, `delete`
removes the entry, `get`/`has` look the key up.  The socket.io event
handlers become a `step` function from a server state and an inbound
event to the successor state together with the ordered list of emitted
notifications; the once-per-second interval callback becomes the `tick`
event.  Numbers used as countdown values are embedded as `Int` (the JS
counter may go below zero before the expiry check fires).
-/

namespace PollServer

/-- `Map.get` on an association list. -/
def mapGet {β : Type} (k : String) : List (String × β) → Option β
  | [] => none
  | (k', v) :: rest => if k' = k then some v else mapGet k rest

/-- `Map.has` on an association list. -/
def mapHas {β : Type} (k : String) (m : List (String × β)) : Bool :=
  (mapGet k m).isSome

/-- `Map.set` on an association list: update in place, else append. -/
def mapSet {β : Type} (k : String) (v : β) : List (String × β) → List (String × β)
  | [] => [(k, v)]
  | (k', v') :: rest => if k' = k then (k, v) :: rest else (k', v') :: mapSet k v rest

/-- `Map.delete` on an association list. -/
def mapDelete {β : Type} (k : String) : List (String × β) → List (String × β)
  | [] => []
  | (k', v') :: rest => if k' = k then rest else (k', v') :: mapDelete k rest

/-- Participant roles: the `teacherJoin` handler registers "teacher",
`studentJoin` registers "student". -/
inductive Role where
  | teacher
  | student
deriving DecidableEq, Repr

/-- A roster entry: `{name, role}` stored under the socket id. -/
structure Participant where
  name : String
  role : Role
deriving DecidableEq, Repr

/-- The payload of a `startQuestion` event: `{id, text, options, timeLimit}`. -/
structure Question where
  id : String
  text : String
  options : List String
  timeLimit : Int
deriving DecidableEq, Repr

/-- The stored current question: the incoming question spread together
with the allocated `questionNumber`. -/
structure CurrentQuestion where
  q : Question
  questionNumber : Nat
deriving DecidableEq, Repr

/-- One element of the list built by `calculateResults`. -/
structure ResultEntry where
  option : String
  count : Nat
  percentage : Nat
deriving DecidableEq, Repr

/-- The module-level mutable state of `server.js`. -/
structure ServerState where
  currentQuestion : Option CurrentQuestion
  participants : List (String × Participant)
  answers : List (String × List (String × String))
  timerRunning : Bool
  timeLeft : Int
  questionNumber : Nat
  questionHistory : List (String × Nat)
deriving DecidableEq, Repr

/-- The state at process start. -/
def initialState : ServerState :=
  { currentQuestion := none
    participants := []
    answers := []
    timerRunning := false
    timeLeft := 0
    questionNumber := 0
    questionHistory := [] }

/-- Recipients of an emitted notification: `io.emit`, `io.to("teachers")`,
`io.to("students")`, `socket.emit` / `io.to(socketId)`. -/
inductive Target where
  | all
  | teachers
  | students
  | socket (sid : String)
deriving DecidableEq, Repr

/-- The notifications the server emits. -/
inductive Msg where
  | participantsUpdate (names : List String)
  | questionStatus (canAskNew : Bool)
  | questionStarted (question : CurrentQuestion)
  | timeUpdate (t : Int)
  | questionError (message : String)
  | pollResults (results : List ResultEntry) (questionNumber : Nat)
      (questionId : String) (questionText : String)
  | studentKicked
  | forceDisconnect
  | chat (payload : String)
deriving DecidableEq, Repr

/-- Inbound events, including the timer interval callback as `tick`. -/
inductive Event where
  | teacherJoin (sid : String)
  | studentJoin (sid : String) (studentName : String)
  | startQuestion (sid : String) (question : Question)
  | submitAnswer (sid : String) (questionId : String) (answer : String)
      (studentName : String)
  | chatMessage (payload : String)
  | kickStudent (studentName : String)
  | disconnect (sid : String)
  | tick
deriving DecidableEq, Repr

/-- `Array.from(participants.values()).filter(p => p.role === "student").map(p => p.name)`. -/
def studentNames (ps : List (String × Participant)) : List String :=
  (ps.filter (fun p => decide (p.2.role = Role.student))).map (fun p => p.2.name)

/-- `filter(p => p.role === "student").length`: the respondent count. -/
def totalStudents (s : ServerState) : Nat :=
  (s.participants.filter (fun p => decide (p.2.role = Role.student))).length

/-- `Math.round((count / totalAnswers) * 100)` on exact rationals:
`floor(count*100/total + 1/2)` as natural division. -/
def roundPct (count total : Nat) : Nat :=
  (200 * count + total) / (2 * total)

/-- `calculateResults(options, questionAnswers)`: initialize a zero count
per option, bump the count of every submitted answer that is a known
option, then attach percentages over `questionAnswers.size`. -/
def calculateResults (options : List String) (questionAnswers : List (String × String)) :
    List ResultEntry :=
  let answerCounts := options.foldl (fun m o => mapSet o 0 m) []
  let counted := (questionAnswers.map Prod.snd).foldl
    (fun m a => if mapHas a m then mapSet a ((mapGet a m).getD 0 + 1) m else m)
    answerCounts
  let totalAnswers := questionAnswers.length
  counted.map (fun p =>
    { option := p.1
      count := p.2
      percentage := if totalAnswers > 0 then roundPct p.2 totalAnswers else 0 })

/-- The error message sent on an illegal `startQuestion`. -/
def startErrorMessage : String :=
  "Cannot ask a new question while the current question is still active. Please wait for all students to answer or for the timer to expire."

/-- `isQuestionComplete()`: vacuously true with no current question,
false when its answer map is missing, else all students answered or
time ran out. -/
def isQuestionComplete (s : ServerState) : Bool :=
  match s.currentQuestion with
  | none => true
  | some cq =>
    match mapGet cq.q.id s.answers with
    | none => false
    | some qa => decide (qa.length ≥ totalStudents s) || decide (s.timeLeft ≤ 0)

/-- `endQuestion()`: emit the aggregated results and the reopened
question status, then clear the current question and the clock. -/
def endQuestion (s : ServerState) : ServerState × List (Target × Msg) :=
  match s.currentQuestion with
  | none => (s, [])
  | some cq =>
    match mapGet cq.q.id s.answers with
    | none => (s, [])
    | some qa =>
      let results := calculateResults cq.q.options qa
      ({ s with currentQuestion := none, timeLeft := 0 },
       [(Target.all, Msg.pollResults results cq.questionNumber cq.q.id cq.q.text),
        (Target.teachers, Msg.questionStatus true)])

/-- The `teacherJoin` handler. -/
def handleTeacherJoin (s : ServerState) (sid : String) : ServerState × List (Target × Msg) :=
  let s' := { s with participants := mapSet sid ⟨"Teacher", Role.teacher⟩ s.participants }
  (s', [(Target.socket sid, Msg.participantsUpdate (studentNames s'.participants)),
        (Target.socket sid, Msg.questionStatus (s'.currentQuestion.isNone || isQuestionComplete s'))])

/-- The `studentJoin` handler. -/
def handleStudentJoin (s : ServerState) (sid studentName : String) :
    ServerState × List (Target × Msg) :=
  let s' := { s with participants := mapSet sid ⟨studentName, Role.student⟩ s.participants }
  let base := [(Target.all, Msg.participantsUpdate (studentNames s'.participants))]
  match s'.currentQuestion with
  | some cq =>
    (s', base ++ [(Target.socket sid, Msg.questionStarted cq),
                  (Target.socket sid, Msg.timeUpdate s'.timeLeft)])
  | none => (s', base)

/-- The `startQuestion` handler. -/
def handleStartQuestion (s : ServerState) (sid : String) (question : Question) :
    ServerState × List (Target × Msg) :=
  if s.currentQuestion.isSome && !(isQuestionComplete s) then
    (s, [(Target.socket sid, Msg.questionError startErrorMessage)])
  else
    let n := s.questionNumber + 1
    let cq : CurrentQuestion := ⟨question, n⟩
    let s' := { s with
      questionNumber := n
      questionHistory := mapSet question.id n s.questionHistory
      currentQuestion := some cq
      answers := mapSet question.id [] s.answers
      timeLeft := question.timeLimit
      timerRunning := true }
    (s', [(Target.students, Msg.questionStarted cq),
          (Target.all, Msg.timeUpdate s'.timeLeft),
          (Target.teachers, Msg.questionStatus false)])

/-- The `submitAnswer` handler. -/
def handleSubmitAnswer (s : ServerState) (questionId answer studentName : String) :
    ServerState × List (Target × Msg) :=
  match s.currentQuestion with
  | none => (s, [])
  | some cq =>
    if cq.q.id = questionId then
      match mapGet questionId s.answers with
      | none => (s, [])
      | some qa =>
        if mapHas studentName qa then (s, [])
        else
          let qa' := mapSet studentName answer qa
          let s1 := { s with answers := mapSet questionId qa' s.answers }
          if qa'.length ≥ totalStudents s1 then
            endQuestion { s1 with timerRunning := false }
          else (s1, [])
    else (s, [])

/-- The `kickStudent` loop's match condition: a roster entry whose
participant has the given name and the student role. -/
def kickPred (studentName : String) (p : String × Participant) : Bool :=
  decide (p.2.name = studentName) && decide (p.2.role = Role.student)

/-- The `kickStudent` handler: scan roster entries in insertion order for
the first student with the given name, delete it, notify. -/
def handleKickStudent (s : ServerState) (studentName : String) :
    ServerState × List (Target × Msg) :=
  match s.participants.find? (kickPred studentName) with
  | none => (s, [])
  | some (sid, _) =>
    let s' := { s with participants := mapDelete sid s.participants }
    (s', [(Target.socket sid, Msg.studentKicked),
          (Target.all, Msg.participantsUpdate (studentNames s'.participants)),
          (Target.socket sid, Msg.forceDisconnect)])

/-- The `disconnect` handler. -/
def handleDisconnect (s : ServerState) (sid : String) : ServerState × List (Target × Msg) :=
  let s' := { s with participants := mapDelete sid s.participants }
  (s', [(Target.all, Msg.participantsUpdate (studentNames s'.participants))])

/-- The interval callback: decrement, broadcast, and on reaching zero
stop the interval and end the question. -/
def handleTick (s : ServerState) : ServerState × List (Target × Msg) :=
  if s.timerRunning then
    let s1 := { s with timeLeft := s.timeLeft - 1 }
    let head := (Target.all, Msg.timeUpdate s1.timeLeft)
    if s1.timeLeft ≤ (0 : Int) then
      let p := endQuestion { s1 with timerRunning := false }
      (p.1, head :: p.2)
    else (s1, [head])
  else (s, [])

/-- One serialized dispatch of an inbound event. -/
def step (s : ServerState) : Event → ServerState × List (Target × Msg)
  | Event.teacherJoin sid => handleTeacherJoin s sid
  | Event.studentJoin sid studentName => handleStudentJoin s sid studentName
  | Event.startQuestion sid question => handleStartQuestion s sid question
  | Event.submitAnswer _ questionId answer studentName =>
      handleSubmitAnswer s questionId answer studentName
  | Event.chatMessage payload => (s, [(Target.all, Msg.chat payload)])
  | Event.kickStudent studentName => handleKickStudent s studentName
  | Event.disconnect sid => handleDisconnect s sid
  | Event.tick => handleTick s

/-- Run a serial stream of events, collecting all emitted notifications. -/
def run (s : ServerState) : List Event → ServerState × List (Target × Msg)
  | [] => (s, [])
  | e :: es =>
    let p := step s e
    let p' := run p.1 es
    (p'.1, p.2 ++ p'.2)

/-- Whether a notification is a `pollResults` carrying sequence number `n`. -/
def isPollResultsNum (n : Nat) : Target × Msg → Bool
  | (_, Msg.pollResults _ qn _ _) => decide (qn = n)
  | _ => false

/-- How many `pollResults` notifications with sequence number `n` a
notification list holds. -/
def countNum (n : Nat) (outs : List (Target × Msg)) : Nat :=
  (outs.filter (isPollResultsNum n)).length

/-- From state `s`, no continuation of the session ever emits a
`pollResults` with sequence number `n`. -/
def neverEmitsNum (s : ServerState) (n : Nat) : Prop :=
  ∀ es : List Event, countNum n (run s es).2 = 0

/-! ### Association-list lemmas -/

theorem mapGet_mapSet_self {β : Type} (k : String) (v : β) (m : List (String × β)) :
    mapGet k (mapSet k v m) = some v := by
  induction m with
  | nil => simp [mapGet, mapSet]
  | cons hd tl ih =>
    by_cases h : hd.1 = k
    · simp [mapGet, mapSet, h]
    · simp [mapGet, mapSet, h, ih]

theorem mapGet_mapSet_ne {β : Type} {k' k : String} (v : β) (m : List (String × β))
    (h : k' ≠ k) : mapGet k (mapSet k' v m) = mapGet k m := by
  induction m with
  | nil => simp [mapGet, mapSet, h]
  | cons hd tl ih =>
    by_cases h1 : hd.1 = k'
    · simp [mapGet, mapSet, h1, h]
    · by_cases h2 : hd.1 = k <;> simp [mapGet, mapSet, h1, h2, ih, Ne.symm h]

theorem mapSet_append_of_not_has {β : Type} {k : String} (v : β) {m : List (String × β)}
    (h : mapHas k m = false) : mapSet k v m = m ++ [(k, v)] := by
  induction m with
  | nil => simp [mapSet]
  | cons hd tl ih =>
    have h1 : hd.1 ≠ k := by
      intro hk
      unfold mapHas mapGet at h
      simp [hk] at h
    have h2 : mapHas k tl = false := by
      unfold mapHas mapGet at h
      simp [h1] at h
      simp [mapHas, h]
    simp [mapSet, h1, ih h2]

theorem length_mapSet_of_not_has {β : Type} {k : String} (v : β) {m : List (String × β)}
    (h : mapHas k m = false) : (mapSet k v m).length = m.length + 1 := by
  rw [mapSet_append_of_not_has v h]
  simp

theorem mapGet_mapSet_fresh {β : Type} {k name : String} (v : β) {m : List (String × β)}
    (hfresh : mapHas name m = false) (h : mapGet k m ≠ none) :
    mapGet k (mapSet name v m) = mapGet k m := by
  refine mapGet_mapSet_ne v m (fun hk => ?_)
  subst hk
  unfold mapHas at hfresh
  cases hm : mapGet name m with
  | none => exact h hm
  | some w => rw [hm] at hfresh; simp at hfresh

/-! ### The startQuestion gate -/

/-- The spec's gating condition for `startQuestion`: no question is open,
or the open question is complete (its answer map has at least as many
entries as there are students, or the countdown has reached zero). -/
def startPermitted (s : ServerState) : Prop :=
  s.currentQuestion = none ∨
  ∃ cq qa, s.currentQuestion = some cq ∧ mapGet cq.q.id s.answers = some qa ∧
    (totalStudents s ≤ qa.length ∨ s.timeLeft ≤ 0)

theorem startPermitted_iff (s : ServerState) :
    startPermitted s ↔ (s.currentQuestion.isSome && !(isQuestionComplete s)) = false := by
  unfold startPermitted isQuestionComplete
  cases hcq : s.currentQuestion with
  | none => simp
  | some cq =>
    cases hqa : mapGet cq.q.id s.answers with
    | none => simp [hqa]
    | some qa =>
      simp [hqa]
      omega

/-- Claim C2: `startQuestion` succeeds exactly when no question is open or
the open question is complete; on failure the requester alone gets a
`questionError` and the state is unchanged. -/
theorem startQuestion_gate (s : ServerState) (sid : String) (q : Question) :
    (¬ startPermitted s →
      step s (Event.startQuestion sid q) =
        (s, [(Target.socket sid, Msg.questionError startErrorMessage)])) ∧
    (startPermitted s →
      (step s (Event.startQuestion sid q)).1.currentQuestion =
          some ⟨q, s.questionNumber + 1⟩ ∧
      ∀ x ∈ (step s (Event.startQuestion sid q)).2,
        ∀ msg, x.2 ≠ Msg.questionError msg) := by
  rw [startPermitted_iff]
  constructor
  · intro h
    have hb : (s.currentQuestion.isSome && !(isQuestionComplete s)) = true := by
      cases hx : (s.currentQuestion.isSome && !(isQuestionComplete s)) with
      | false => exact absurd hx h
      | true => rfl
    simp [step, handleStartQuestion, hb]
  · intro h
    simp [step, handleStartQuestion, h]

/-- A sample question used in concrete scenarios. -/
def qOne : Question := ⟨"q1", "first question", ["A", "B"], 5⟩

def qTwo : Question := ⟨"q2", "second question", ["A", "B"], 5⟩

/-- A state with an open question, one student, and no answers yet. -/
def blockedState : ServerState :=
  (run initialState [Event.teacherJoin "t", Event.studentJoin "s1" "Alice",
    Event.startQuestion "t" qOne]).1

theorem startQuestion_gate_witness :
    step blockedState (Event.startQuestion "t" qTwo) =
      (blockedState, [(Target.socket "t", Msg.questionError startErrorMessage)]) :=
  (startQuestion_gate blockedState "t" qTwo).1 (by rw [startPermitted_iff]; decide)

/-! ### endQuestion frame lemmas -/

theorem endQuestion_answers (s : ServerState) : (endQuestion s).1.answers = s.answers := by
  rcases hcq : s.currentQuestion with _ | cq
  · simp [endQuestion, hcq]
  · rcases hqa : mapGet cq.q.id s.answers with _ | qa
    · simp [endQuestion, hcq, hqa]
    · simp [endQuestion, hcq, hqa]

theorem endQuestion_participants (s : ServerState) :
    (endQuestion s).1.participants = s.participants := by
  rcases hcq : s.currentQuestion with _ | cq
  · simp [endQuestion, hcq]
  · rcases hqa : mapGet cq.q.id s.answers with _ | qa
    · simp [endQuestion, hcq, hqa]
    · simp [endQuestion, hcq, hqa]

theorem endQuestion_questionNumber (s : ServerState) :
    (endQuestion s).1.questionNumber = s.questionNumber := by
  rcases hcq : s.currentQuestion with _ | cq
  · simp [endQuestion, hcq]
  · rcases hqa : mapGet cq.q.id s.answers with _ | qa
    · simp [endQuestion, hcq, hqa]
    · simp [endQuestion, hcq, hqa]

theorem endQuestion_timerRunning (s : ServerState) :
    (endQuestion s).1.timerRunning = s.timerRunning := by
  rcases hcq : s.currentQuestion with _ | cq
  · simp [endQuestion, hcq]
  · rcases hqa : mapGet cq.q.id s.answers with _ | qa
    · simp [endQuestion, hcq, hqa]
    · simp [endQuestion, hcq, hqa]

/-! ### submitAnswer behavior -/

/-- Reduction of the `submitAnswer` handler on an accepted submission. -/
theorem handleSubmitAnswer_accept (s : ServerState) (qid ans name : String)
    (cq : CurrentQuestion) (qa : List (String × String))
    (hcq : s.currentQuestion = some cq) (hid : cq.q.id = qid)
    (hqa : mapGet qid s.answers = some qa) (hfresh : mapHas name qa = false) :
    handleSubmitAnswer s qid ans name =
      (if (mapSet name ans qa).length ≥ totalStudents s then
        endQuestion { s with answers := mapSet qid (mapSet name ans qa) s.answers,
                             timerRunning := false }
       else ({ s with answers := mapSet qid (mapSet name ans qa) s.answers }, [])) := by
  simp only [handleSubmitAnswer, hcq, hid, hqa, hfresh]
  simp [totalStudents]

/-- A `submitAnswer` dispatch either leaves the answer ledger untouched,
or appends the fresh pair to the open question's answer map. -/
theorem submit_answers_cases (s : ServerState) (sid qid ans name : String) :
    (step s (Event.submitAnswer sid qid ans name)).1.answers = s.answers ∨
    (∃ qa, mapGet qid s.answers = some qa ∧ mapHas name qa = false ∧
      (step s (Event.submitAnswer sid qid ans name)).1.answers =
        mapSet qid (mapSet name ans qa) s.answers) := by
  show (handleSubmitAnswer s qid ans name).1.answers = s.answers ∨ _
  rcases hcq : s.currentQuestion with _ | cq
  · simp [handleSubmitAnswer, hcq]
  · by_cases hid : cq.q.id = qid
    · rcases hqa : mapGet qid s.answers with _ | qa
      · simp [handleSubmitAnswer, hcq, hid, hqa]
      · by_cases hhas : mapHas name qa = true
        · simp [handleSubmitAnswer, hcq, hid, hqa, hhas]
        · have hfresh : mapHas name qa = false := by simpa using hhas
          refine Or.inr ⟨qa, rfl, hfresh, ?_⟩
          show (handleSubmitAnswer s qid ans name).1.answers =
            mapSet qid (mapSet name ans qa) s.answers
          rw [handleSubmitAnswer_accept s qid ans name cq qa hcq hid hqa hfresh]
          by_cases hall : (mapSet name ans qa).length ≥ totalStudents s
          · rw [if_pos hall, endQuestion_answers]
          · rw [if_neg hall]
    · simp [handleSubmitAnswer, hcq, hid]

/-- Reduction of `endQuestion` when it actually closes. -/
theorem endQuestion_emit (s : ServerState) (cq : CurrentQuestion)
    (qa : List (String × String)) (hcq : s.currentQuestion = some cq)
    (hqa : mapGet cq.q.id s.answers = some qa) :
    endQuestion s =
      ({ s with currentQuestion := none, timeLeft := 0 },
       [(Target.all, Msg.pollResults (calculateResults cq.q.options qa)
           cq.questionNumber cq.q.id cq.q.text),
        (Target.teachers, Msg.questionStatus true)]) := by
  simp [endQuestion, hcq, hqa]

/-- An accepted submission appends exactly one ledger entry. -/
theorem submit_accept_adds (s : ServerState) (sid qid ans name : String)
    (cq : CurrentQuestion) (qa : List (String × String))
    (hcq : s.currentQuestion = some cq) (hid : cq.q.id = qid)
    (hqa : mapGet qid s.answers = some qa) (hfresh : mapHas name qa = false) :
    mapGet qid (step s (Event.submitAnswer sid qid ans name)).1.answers =
      some (qa ++ [(name, ans)]) := by
  show mapGet qid (handleSubmitAnswer s qid ans name).1.answers = _
  rw [handleSubmitAnswer_accept s qid ans name cq qa hcq hid hqa hfresh]
  by_cases hall : (mapSet name ans qa).length ≥ totalStudents s
  · rw [if_pos hall, endQuestion_answers]
    show mapGet qid (mapSet qid (mapSet name ans qa) s.answers) = _
    rw [mapGet_mapSet_self, mapSet_append_of_not_has ans hfresh]
  · rw [if_neg hall]
    show mapGet qid (mapSet qid (mapSet name ans qa) s.answers) = _
    rw [mapGet_mapSet_self, mapSet_append_of_not_has ans hfresh]

/-- An accepted submission that reaches the student count cancels the
interval and runs `endQuestion` right away. -/
theorem submit_accept_closes (s : ServerState) (sid qid ans name : String)
    (cq : CurrentQuestion) (qa : List (String × String))
    (hcq : s.currentQuestion = some cq) (hid : cq.q.id = qid)
    (hqa : mapGet qid s.answers = some qa) (hfresh : mapHas name qa = false)
    (hall : totalStudents s ≤ qa.length + 1) :
    step s (Event.submitAnswer sid qid ans name) =
      ({ s with answers := mapSet qid (mapSet name ans qa) s.answers,
                timerRunning := false, currentQuestion := none, timeLeft := 0 },
       [(Target.all, Msg.pollResults (calculateResults cq.q.options (qa ++ [(name, ans)]))
           cq.questionNumber cq.q.id cq.q.text),
        (Target.teachers, Msg.questionStatus true)]) := by
  have hlen : (mapSet name ans qa).length = qa.length + 1 := length_mapSet_of_not_has ans hfresh
  have hge : (mapSet name ans qa).length ≥ totalStudents s := by rw [hlen]; exact hall
  show handleSubmitAnswer s qid ans name = _
  rw [handleSubmitAnswer_accept s qid ans name cq qa hcq hid hqa hfresh, if_pos hge]
  have hXcq : ({ s with answers := mapSet qid (mapSet name ans qa) s.answers,
                        timerRunning := false } : ServerState).currentQuestion = some cq := hcq
  have hXqa : mapGet cq.q.id ({ s with answers := mapSet qid (mapSet name ans qa) s.answers,
                                       timerRunning := false } : ServerState).answers =
      some (mapSet name ans qa) := by
    show mapGet cq.q.id (mapSet qid (mapSet name ans qa) s.answers) = _
    rw [hid]
    exact mapGet_mapSet_self qid _ s.answers
  rw [endQuestion_emit _ cq (mapSet name ans qa) hXcq hXqa]
  rw [mapSet_append_of_not_has ans hfresh]

/-- Claim C5: `submitAnswer` silently ignores a mismatched id, a missing
answer map, or a duplicate respondent; otherwise it appends exactly one
entry; and it never alters an existing entry. -/
theorem submitAnswer_spec (s : ServerState) (sid qid ans name : String) :
    ((s.currentQuestion = none ∨
      (∃ cq, s.currentQuestion = some cq ∧ cq.q.id ≠ qid) ∨
      mapGet qid s.answers = none ∨
      (∃ qa, mapGet qid s.answers = some qa ∧ mapHas name qa = true)) →
      step s (Event.submitAnswer sid qid ans name) = (s, [])) ∧
    (∀ cq qa, s.currentQuestion = some cq → cq.q.id = qid →
      mapGet qid s.answers = some qa → mapHas name qa = false →
      mapGet qid (step s (Event.submitAnswer sid qid ans name)).1.answers =
        some (qa ++ [(name, ans)])) ∧
    (∀ qid' name' a qa', mapGet qid' s.answers = some qa' →
      mapGet name' qa' = some a →
      ∃ qa'', mapGet qid' (step s (Event.submitAnswer sid qid ans name)).1.answers =
          some qa'' ∧ mapGet name' qa'' = some a) := by
  refine ⟨?_, ?_, ?_⟩
  · rintro (h | ⟨cq, hcq, hne⟩ | h | ⟨qa, hqa, hhas⟩)
    · show handleSubmitAnswer s qid ans name = (s, [])
      simp [handleSubmitAnswer, h]
    · show handleSubmitAnswer s qid ans name = (s, [])
      simp [handleSubmitAnswer, hcq, hne]
    · show handleSubmitAnswer s qid ans name = (s, [])
      rcases hcq : s.currentQuestion with _ | cq
      · simp [handleSubmitAnswer, hcq]
      · by_cases hid : cq.q.id = qid
        · simp [handleSubmitAnswer, hcq, hid, h]
        · simp [handleSubmitAnswer, hcq, hid]
    · show handleSubmitAnswer s qid ans name = (s, [])
      rcases hcq : s.currentQuestion with _ | cq
      · simp [handleSubmitAnswer, hcq]
      · by_cases hid : cq.q.id = qid
        · simp [handleSubmitAnswer, hcq, hid, hqa, hhas]
        · simp [handleSubmitAnswer, hcq, hid]
  · intro cq qa hcq hid hqa hfresh
    exact submit_accept_adds s sid qid ans name cq qa hcq hid hqa hfresh
  · intro qid' name' a qa' hget hga
    rcases submit_answers_cases s sid qid ans name with h | ⟨qa2, hqa2, hf2, h2⟩
    · exact ⟨qa', by rw [h, hget], hga⟩
    · by_cases hq : qid = qid'
      · subst hq
        rw [hget] at hqa2
        cases hqa2
        refine ⟨mapSet name ans qa', by rw [h2, mapGet_mapSet_self], ?_⟩
        rw [mapGet_mapSet_fresh ans hf2 (by rw [hga]; exact fun h => Option.noConfusion h)]
        exact hga
      · exact ⟨qa', by rw [h2, mapGet_mapSet_ne _ _ hq, hget], hga⟩

/-- A state with an open question `q1` where Alice has already answered. -/
def dupState : ServerState :=
  (run initialState [Event.teacherJoin "t", Event.studentJoin "s1" "Alice",
    Event.studentJoin "s2" "Bob", Event.startQuestion "t" qOne,
    Event.submitAnswer "s1" "q1" "A" "Alice"]).1

theorem submitAnswer_spec_witness :
    step dupState (Event.submitAnswer "s1" "q1" "B" "Alice") = (dupState, []) :=
  (submitAnswer_spec dupState "s1" "q1" "B" "Alice").1
    (Or.inr (Or.inr (Or.inr ⟨[("Alice", "A")], by decide, by decide⟩)))

/-- Claim C3: an accepted submission whose post-submission answer count
reaches the student count cancels the countdown and immediately runs the
closure procedure, emitting `pollResults`. -/
theorem allAnswered_closes (s : ServerState) (sid qid ans name : String)
    (cq : CurrentQuestion) (qa : List (String × String))
    (hcq : s.currentQuestion = some cq) (hid : cq.q.id = qid)
    (hqa : mapGet qid s.answers = some qa) (hfresh : mapHas name qa = false)
    (hall : totalStudents s ≤ qa.length + 1) :
    (step s (Event.submitAnswer sid qid ans name)).1.timerRunning = false ∧
    (step s (Event.submitAnswer sid qid ans name)).1.currentQuestion = none ∧
    (step s (Event.submitAnswer sid qid ans name)).2 =
      [(Target.all, Msg.pollResults (calculateResults cq.q.options (qa ++ [(name, ans)]))
          cq.questionNumber cq.q.id cq.q.text),
       (Target.teachers, Msg.questionStatus true)] := by
  rw [submit_accept_closes s sid qid ans name cq qa hcq hid hqa hfresh hall]
  exact ⟨rfl, rfl, rfl⟩

/-- Witness for `allAnswered_closes`: the spec scenario where Bob's answer
is the second of two and the question closes at 50/50. -/
theorem allAnswered_closes_witness :
    (step dupState (Event.submitAnswer "s2" "q1" "B" "Bob")).1.timerRunning = false ∧
    (step dupState (Event.submitAnswer "s2" "q1" "B" "Bob")).1.currentQuestion = none ∧
    (step dupState (Event.submitAnswer "s2" "q1" "B" "Bob")).2 =
      [(Target.all, Msg.pollResults
          [⟨"A", 1, 50⟩, ⟨"B", 1, 50⟩] 1 "q1" "first question"),
       (Target.teachers, Msg.questionStatus true)] :=
  allAnswered_closes dupState "s2" "q1" "B" "Bob" ⟨qOne, 1⟩ [("Alice", "A")]
    (by decide) (by decide) (by decide) (by decide) (by decide)

/-- A state with a teacher, an open question, and zero students. -/
def ghostState : ServerState :=
  (run initialState [Event.teacherJoin "t", Event.startQuestion "t" qOne]).1

/-- Claim C9: `submitAnswer` never checks the roster: a name absent from
the respondent roster is still recorded, and with zero students a single
submission closes the question at once. -/
theorem submit_no_roster_check (s : ServerState) (sid qid ans name : String)
    (cq : CurrentQuestion) (qa : List (String × String))
    (hcq : s.currentQuestion = some cq) (hid : cq.q.id = qid)
    (hqa : mapGet qid s.answers = some qa) (hfresh : mapHas name qa = false)
    (hghost : name ∉ studentNames s.participants) :
    mapGet qid (step s (Event.submitAnswer sid qid ans name)).1.answers =
      some (qa ++ [(name, ans)]) ∧
    (totalStudents s = 0 →
      (step s (Event.submitAnswer sid qid ans name)).1.currentQuestion = none ∧
      countNum cq.questionNumber (step s (Event.submitAnswer sid qid ans name)).2 = 1) := by
  refine ⟨submit_accept_adds s sid qid ans name cq qa hcq hid hqa hfresh, ?_⟩
  intro htot
  have hall : totalStudents s ≤ qa.length + 1 := by omega
  rw [submit_accept_closes s sid qid ans name cq qa hcq hid hqa hfresh hall]
  exact ⟨rfl, by simp [countNum, isPollResultsNum]⟩

theorem submit_no_roster_check_witness :
    mapGet "q1" (step ghostState (Event.submitAnswer "gx" "q1" "A" "Ghost")).1.answers =
      some [("Ghost", "A")] ∧
    (step ghostState (Event.submitAnswer "gx" "q1" "A" "Ghost")).1.currentQuestion = none :=
  ⟨(submit_no_roster_check ghostState "gx" "q1" "A" "Ghost" ⟨qOne, 1⟩ []
      (by decide) (by decide) (by decide) (by decide) (by decide)).1,
   ((submit_no_roster_check ghostState "gx" "q1" "A" "Ghost" ⟨qOne, 1⟩ []
      (by decide) (by decide) (by decide) (by decide) (by decide)).2 (by decide)).1⟩

/-! ### Step shape lemmas -/

theorem endQuestion_currentQuestion (s : ServerState) :
    (endQuestion s).1.currentQuestion = s.currentQuestion ∨
    (endQuestion s).1.currentQuestion = none := by
  rcases hcq : s.currentQuestion with _ | cq
  · simp [endQuestion, hcq]
  · rcases hqa : mapGet cq.q.id s.answers with _ | qa
    · simp [endQuestion, hcq, hqa]
    · simp [endQuestion, hcq, hqa]

/-- Complete case analysis of the `submitAnswer` handler. -/
theorem handleSubmitAnswer_cases (s : ServerState) (qid ans name : String) :
    handleSubmitAnswer s qid ans name = (s, []) ∨
    (∃ cq qa, s.currentQuestion = some cq ∧ cq.q.id = qid ∧
      mapGet qid s.answers = some qa ∧ mapHas name qa = false ∧
      (handleSubmitAnswer s qid ans name =
        ({ s with answers := mapSet qid (mapSet name ans qa) s.answers }, []) ∨
       handleSubmitAnswer s qid ans name =
        ({ s with answers := mapSet qid (mapSet name ans qa) s.answers,
                  timerRunning := false, currentQuestion := none, timeLeft := 0 },
         [(Target.all,
            Msg.pollResults (calculateResults cq.q.options (qa ++ [(name, ans)]))
              cq.questionNumber cq.q.id cq.q.text),
          (Target.teachers, Msg.questionStatus true)]))) := by
  rcases hcq : s.currentQuestion with _ | cq
  · exact Or.inl (by simp [handleSubmitAnswer, hcq])
  · by_cases hid : cq.q.id = qid
    · rcases hqa : mapGet qid s.answers with _ | qa
      · exact Or.inl (by simp [handleSubmitAnswer, hcq, hid, hqa])
      · by_cases hhas : mapHas name qa = true
        · exact Or.inl (by simp [handleSubmitAnswer, hcq, hid, hqa, hhas])
        · have hfresh : mapHas name qa = false := by simpa using hhas
          refine Or.inr ⟨cq, qa, rfl, hid, rfl, hfresh, ?_⟩
          by_cases hall : (mapSet name ans qa).length ≥ totalStudents s
          · refine Or.inr ?_
            have hall2 : totalStudents s ≤ qa.length + 1 := by
              rw [length_mapSet_of_not_has ans hfresh] at hall
              exact hall
            exact submit_accept_closes s "" qid ans name cq qa hcq hid hqa hfresh hall2
          · refine Or.inl ?_
            show handleSubmitAnswer s qid ans name = _
            rw [handleSubmitAnswer_accept s qid ans name cq qa hcq hid hqa hfresh,
              if_neg hall, hcq]
    · exact Or.inl (by simp [handleSubmitAnswer, hcq, hid])

/-- Every dispatch either keeps the sequence counter and keeps or clears
the current question, or is a successful `startQuestion` installing a
fresh question numbered `questionNumber + 1`. -/
theorem step_shape (s : ServerState) (e : Event) :
    ((step s e).1.questionNumber = s.questionNumber ∧
      ((step s e).1.currentQuestion = s.currentQuestion ∨
       (step s e).1.currentQuestion = none)) ∨
    (∃ q, (step s e).1.questionNumber = s.questionNumber + 1 ∧
      (step s e).1.currentQuestion = some ⟨q, s.questionNumber + 1⟩) := by
  cases e with
  | teacherJoin sid => exact Or.inl ⟨rfl, Or.inl rfl⟩
  | studentJoin sid name =>
    rcases hcq : s.currentQuestion with _ | cq <;>
      · left
        constructor
        · show (handleStudentJoin s sid name).1.questionNumber = _
          simp [handleStudentJoin, hcq]
        · left
          show (handleStudentJoin s sid name).1.currentQuestion = _
          simp [handleStudentJoin, hcq]
  | startQuestion sid q =>
    cases hguard : (s.currentQuestion.isSome && !(isQuestionComplete s)) with
    | true =>
      left
      constructor
      · show (handleStartQuestion s sid q).1.questionNumber = _
        simp [handleStartQuestion, hguard]
      · left
        show (handleStartQuestion s sid q).1.currentQuestion = _
        simp [handleStartQuestion, hguard]
    | false =>
      right
      refine ⟨q, ?_, ?_⟩
      · show (handleStartQuestion s sid q).1.questionNumber = _
        simp [handleStartQuestion, hguard]
      · show (handleStartQuestion s sid q).1.currentQuestion = _
        simp [handleStartQuestion, hguard]
  | submitAnswer sid qid ans name =>
    rcases handleSubmitAnswer_cases s qid ans name with h | ⟨cq, qa, _, _, _, _, h | h⟩
    · exact Or.inl ⟨by rw [show step s (Event.submitAnswer sid qid ans name) =
        handleSubmitAnswer s qid ans name from rfl, h], Or.inl (by
          rw [show step s (Event.submitAnswer sid qid ans name) =
            handleSubmitAnswer s qid ans name from rfl, h])⟩
    · exact Or.inl ⟨by rw [show step s (Event.submitAnswer sid qid ans name) =
        handleSubmitAnswer s qid ans name from rfl, h], Or.inl (by
          rw [show step s (Event.submitAnswer sid qid ans name) =
            handleSubmitAnswer s qid ans name from rfl, h])⟩
    · exact Or.inl ⟨by rw [show step s (Event.submitAnswer sid qid ans name) =
        handleSubmitAnswer s qid ans name from rfl, h], Or.inr (by
          rw [show step s (Event.submitAnswer sid qid ans name) =
            handleSubmitAnswer s qid ans name from rfl, h])⟩
  | chatMessage payload => exact Or.inl ⟨rfl, Or.inl rfl⟩
  | kickStudent name =>
    rcases hf : s.participants.find? (kickPred name) with _ | sp
    · left
      constructor
      · show (handleKickStudent s name).1.questionNumber = _
        simp [handleKickStudent, hf]
      · left
        show (handleKickStudent s name).1.currentQuestion = _
        simp [handleKickStudent, hf]
    · left
      constructor
      · show (handleKickStudent s name).1.questionNumber = _
        simp [handleKickStudent, hf]
      · left
        show (handleKickStudent s name).1.currentQuestion = _
        simp [handleKickStudent, hf]
  | disconnect sid => exact Or.inl ⟨rfl, Or.inl rfl⟩
  | tick =>
    cases htimer : s.timerRunning with
    | false =>
      left
      constructor
      · show (handleTick s).1.questionNumber = _
        simp [handleTick, htimer]
      · left
        show (handleTick s).1.currentQuestion = _
        simp [handleTick, htimer]
    | true =>
      by_cases hexp : s.timeLeft - 1 ≤ (0 : Int)
      · left
        constructor
        · show (handleTick s).1.questionNumber = _
          simp only [handleTick, htimer, if_true, hexp, ite_true]
          exact endQuestion_questionNumber _
        · show (handleTick s).1.currentQuestion = s.currentQuestion ∨
            (handleTick s).1.currentQuestion = none
          simp only [handleTick, htimer, if_true, hexp, ite_true]
          exact endQuestion_currentQuestion _
      · left
        constructor
        · show (handleTick s).1.questionNumber = _
          simp [handleTick, htimer, hexp]
        · left
          show (handleTick s).1.currentQuestion = _
          simp [handleTick, htimer, hexp]

theorem step_questionNumber_mono (s : ServerState) (e : Event) :
    s.questionNumber ≤ (step s e).1.questionNumber := by
  rcases step_shape s e with ⟨h, _⟩ | ⟨q, h, _⟩ <;> omega

/-! ### startQuestion success effects (claim C6) -/

/-- Claim C6: a permitted `startQuestion` bumps the sequence counter by
one, opens an empty answer map, starts the countdown at `timeLimit`,
broadcasts the numbered question to students, the remaining time to all,
and `canAskNew := false` to teachers; and no dispatch ever decreases the
counter. -/
theorem startQuestion_success_effects (s : ServerState) (sid : String) (q : Question)
    (h : startPermitted s) :
    step s (Event.startQuestion sid q) =
      ({ s with questionNumber := s.questionNumber + 1,
                questionHistory := mapSet q.id (s.questionNumber + 1) s.questionHistory,
                currentQuestion := some ⟨q, s.questionNumber + 1⟩,
                answers := mapSet q.id [] s.answers,
                timeLeft := q.timeLimit,
                timerRunning := true },
       [(Target.students, Msg.questionStarted ⟨q, s.questionNumber + 1⟩),
        (Target.all, Msg.timeUpdate q.timeLimit),
        (Target.teachers, Msg.questionStatus false)]) ∧
    mapGet q.id (step s (Event.startQuestion sid q)).1.answers = some [] ∧
    (∀ e : Event, s.questionNumber ≤ (step s e).1.questionNumber) := by
  have hb : (s.currentQuestion.isSome && !(isQuestionComplete s)) = false :=
    (startPermitted_iff s).mp h
  have hmain : step s (Event.startQuestion sid q) =
      ({ s with questionNumber := s.questionNumber + 1,
                questionHistory := mapSet q.id (s.questionNumber + 1) s.questionHistory,
                currentQuestion := some ⟨q, s.questionNumber + 1⟩,
                answers := mapSet q.id [] s.answers,
                timeLeft := q.timeLimit,
                timerRunning := true },
       [(Target.students, Msg.questionStarted ⟨q, s.questionNumber + 1⟩),
        (Target.all, Msg.timeUpdate q.timeLimit),
        (Target.teachers, Msg.questionStatus false)]) := by
    show handleStartQuestion s sid q = _
    simp [handleStartQuestion, hb]
  refine ⟨hmain, ?_, fun e => step_questionNumber_mono s e⟩
  rw [hmain]
  exact mapGet_mapSet_self q.id [] s.answers

theorem startQuestion_success_effects_witness :
    step initialState (Event.startQuestion "t" qOne) =
      ({ initialState with
          questionNumber := 1,
          questionHistory := mapSet qOne.id 1 initialState.questionHistory,
          currentQuestion := some ⟨qOne, 1⟩,
          answers := mapSet qOne.id [] initialState.answers,
          timeLeft := qOne.timeLimit,
          timerRunning := true },
       [(Target.students, Msg.questionStarted ⟨qOne, 1⟩),
        (Target.all, Msg.timeUpdate qOne.timeLimit),
        (Target.teachers, Msg.questionStatus false)]) :=
  (startQuestion_success_effects initialState "t" qOne (Or.inl rfl)).1

/-! ### kickStudent (claims C7, C10) -/

/-- With unique keys (socket ids), deleting the key found by a roster
scan is the same as erasing the first entry matching the scan. -/
theorem mapDelete_of_find {β : Type} (pred : String × β → Bool) :
    ∀ (ps : List (String × β)), (ps.map Prod.fst).Nodup →
    ∀ sid p, ps.find? pred = some (sid, p) → mapDelete sid ps = ps.eraseP pred := by
  intro ps
  induction ps with
  | nil => intro _ sid p hf; simp [List.find?] at hf
  | cons hd tl ih =>
    intro hnd sid p hf
    by_cases hp : pred hd
    · rw [List.find?_cons_of_pos _ hp] at hf
      cases hf
      simp [mapDelete, List.eraseP_cons_of_pos hp]
    · rw [List.find?_cons_of_neg _ hp] at hf
      have hmem : (sid, p) ∈ tl := List.mem_of_find?_eq_some hf
      have hsid : sid ∈ tl.map Prod.fst := List.mem_map_of_mem Prod.fst hmem
      have hnd' := List.nodup_cons.mp hnd
      have hne : hd.1 ≠ sid := fun hEq => hnd'.1 (hEq ▸ hsid)
      simp [mapDelete, hne, List.eraseP_cons_of_neg hp, ih hnd'.2 sid p hf]

/-- Claim C7: `kickStudent` removes at most the first student roster
entry with the given name, emits the kick signal, the updated respondent
list and the forced disconnect, and leaves all other state untouched; a
missing name is a silent no-op. -/
theorem kick_removes_first_only (s : ServerState) (name : String)
    (hnd : (s.participants.map Prod.fst).Nodup) :
    (s.participants.find? (kickPred name) = none →
      step s (Event.kickStudent name) = (s, [])) ∧
    (∀ sid p, s.participants.find? (kickPred name) = some (sid, p) →
      step s (Event.kickStudent name) =
        ({ s with participants := s.participants.eraseP (kickPred name) },
         [(Target.socket sid, Msg.studentKicked),
          (Target.all, Msg.participantsUpdate
            (studentNames (s.participants.eraseP (kickPred name)))),
          (Target.socket sid, Msg.forceDisconnect)])) := by
  constructor
  · intro hf
    show handleKickStudent s name = _
    simp [handleKickStudent, hf]
  · intro sid p hf
    show handleKickStudent s name = _
    rw [show s.participants.eraseP (kickPred name) = mapDelete sid s.participants from
      (mapDelete_of_find (kickPred name) s.participants hnd sid p hf).symm]
    simp [handleKickStudent, hf]

/-- A state with a teacher and one student Alice. -/
def twoPartyState : ServerState :=
  (run initialState [Event.teacherJoin "t", Event.studentJoin "s1" "Alice"]).1

theorem kick_removes_first_only_witness :
    step twoPartyState (Event.kickStudent "Alice") =
      ({ twoPartyState with
          participants := twoPartyState.participants.eraseP (kickPred "Alice") },
       [(Target.socket "s1", Msg.studentKicked),
        (Target.all, Msg.participantsUpdate
          (studentNames (twoPartyState.participants.eraseP (kickPred "Alice")))),
        (Target.socket "s1", Msg.forceDisconnect)]) :=
  (kick_removes_first_only twoPartyState "Alice" (by decide)).2 "s1"
    ⟨"Alice", Role.student⟩ (by decide)

/-- Claim C10: neither `kickStudent` nor `disconnect` touches the current
question, the ledger, or the countdown, and neither ever emits
`pollResults` — removals never trigger the closure procedure. -/
theorem removal_never_closes (s : ServerState) (name sid : String) :
    ((step s (Event.kickStudent name)).1.currentQuestion = s.currentQuestion ∧
     (step s (Event.kickStudent name)).1.answers = s.answers ∧
     (step s (Event.kickStudent name)).1.timerRunning = s.timerRunning ∧
     (step s (Event.kickStudent name)).1.timeLeft = s.timeLeft ∧
     ∀ n, countNum n (step s (Event.kickStudent name)).2 = 0) ∧
    ((step s (Event.disconnect sid)).1.currentQuestion = s.currentQuestion ∧
     (step s (Event.disconnect sid)).1.answers = s.answers ∧
     (step s (Event.disconnect sid)).1.timerRunning = s.timerRunning ∧
     (step s (Event.disconnect sid)).1.timeLeft = s.timeLeft ∧
     ∀ n, countNum n (step s (Event.disconnect sid)).2 = 0) := by
  constructor
  · rcases hf : s.participants.find? (kickPred name) with _ | sp
    · refine ⟨?_, ?_, ?_, ?_, ?_⟩ <;>
        · show _ 
          simp [step, handleKickStudent, hf, countNum, isPollResultsNum]
    · refine ⟨?_, ?_, ?_, ?_, ?_⟩ <;>
        · show _
          simp [step, handleKickStudent, hf, countNum, isPollResultsNum]
  · exact ⟨rfl, rfl, rfl, rfl, fun n => rfl⟩

/-! ### roster broadcasts (claim C8) -/

/-- Claim C8: after a student join, a kick removal, or a disconnect, a
`participantsUpdate` is emitted carrying exactly the display names of the
role=student roster entries of the post state; a student joining while a
question is open additionally receives the question and the remaining
time. -/
theorem roster_broadcast (s : ServerState) (sid name : String) :
    (s.currentQuestion = none →
      step s (Event.studentJoin sid name) =
        ({ s with participants := mapSet sid ⟨name, Role.student⟩ s.participants },
         [(Target.all, Msg.participantsUpdate
             (studentNames (mapSet sid ⟨name, Role.student⟩ s.participants)))])) ∧
    (∀ cq, s.currentQuestion = some cq →
      step s (Event.studentJoin sid name) =
        ({ s with participants := mapSet sid ⟨name, Role.student⟩ s.participants },
         [(Target.all, Msg.participantsUpdate
             (studentNames (mapSet sid ⟨name, Role.student⟩ s.participants))),
          (Target.socket sid, Msg.questionStarted cq),
          (Target.socket sid, Msg.timeUpdate s.timeLeft)])) ∧
    (step s (Event.disconnect sid) =
      ({ s with participants := mapDelete sid s.participants },
       [(Target.all, Msg.participantsUpdate
           (studentNames (mapDelete sid s.participants)))])) ∧
    (∀ (ps : List (String × Participant)) (n : String),
      n ∈ studentNames ps ↔
        ∃ k p, (k, p) ∈ ps ∧ p.role = Role.student ∧ p.name = n) ∧
    (∀ nm sid' p, s.participants.find? (kickPred nm) = some (sid', p) →
      (Target.all, Msg.participantsUpdate
          (studentNames (step s (Event.kickStudent nm)).1.participants)) ∈
        (step s (Event.kickStudent nm)).2) := by
  refine ⟨?_, ?_, ?_, ?_, ?_⟩
  · intro hcq
    show handleStudentJoin s sid name = _
    simp [handleStudentJoin, hcq]
  · intro cq hcq
    show handleStudentJoin s sid name = _
    simp [handleStudentJoin, hcq]
  · rfl
  · intro ps n
    constructor
    · intro hn
      rcases List.mem_map.mp hn with ⟨x, hx, hname⟩
      rcases List.mem_filter.mp hx with ⟨hmem, hrole⟩
      exact ⟨x.1, x.2, hmem, by simpa using hrole, hname⟩
    · rintro ⟨k, p, hmem, hrole, hname⟩
      exact List.mem_map.mpr ⟨(k, p), List.mem_filter.mpr ⟨hmem, by simpa using hrole⟩, hname⟩
  · intro nm sid' p hf
    simp [step, handleKickStudent, hf]

theorem roster_broadcast_witness :
    step initialState (Event.studentJoin "s1" "Alice") =
      ({ initialState with participants := [("s1", ⟨"Alice", Role.student⟩)] },
       [(Target.all, Msg.participantsUpdate ["Alice"])]) :=
  (roster_broadcast initialState "s1" "Alice").1 rfl

/-! ### Result aggregation (claim C4) -/

theorem mapHas_append {β : Type} (k : String) (l1 l2 : List (String × β)) :
    mapHas k (l1 ++ l2) = (mapHas k l1 || mapHas k l2) := by
  induction l1 with
  | nil => simp [mapHas, mapGet]
  | cons hd tl ih =>
    by_cases h : hd.1 = k
    · simp [mapHas, mapGet, h]
    · simpa [mapHas, mapGet, h] using ih

theorem mapGet_map_self {β : Type} (options : List String) (f : String → β) (k : String) :
    mapGet k (options.map (fun o => (o, f o))) =
      if k ∈ options then some (f k) else none := by
  induction options with
  | nil => simp [mapGet]
  | cons o os ih =>
    by_cases h : o = k
    · subst h
      simp [mapGet]
    · simp [mapGet, h, ih, Ne.symm h]

theorem mapSet_map_mem {β : Type} (options : List String) (f : String → β) (a : String)
    (v : β) (hnd : options.Nodup) (hmem : a ∈ options) :
    mapSet a v (options.map (fun o => (o, f o))) =
      options.map (fun o => (o, if o = a then v else f o)) := by
  induction options with
  | nil => simp at hmem
  | cons o os ih =>
    rcases List.nodup_cons.mp hnd with ⟨hnotin, hnd'⟩
    by_cases h : o = a
    · subst h
      have lhs : mapSet o v ((o :: os).map (fun x => (x, f x))) =
          (o, v) :: os.map (fun x => (x, f x)) := by
        simp [mapSet]
      have rhs : (o :: os).map (fun x => (x, if x = o then v else f x)) =
          (o, v) :: os.map (fun x => (x, f x)) := by
        rw [List.map_cons]
        congr 1
        · simp
        · apply List.map_congr_left
          intro o' ho'
          have hne : o' ≠ o := fun hEq => hnotin (hEq ▸ ho')
          simp [hne]
      exact lhs.trans rhs.symm
    · have hmem' : a ∈ os := by
        rcases List.mem_cons.mp hmem with hEq | h2
        · exact absurd hEq.symm h
        · exact h2
      simp only [List.map_cons, mapSet, if_neg h]
      rw [ih hnd' hmem']

/-- One pass of the counting loop on an option-shaped map bumps exactly
the matching option's count. -/
theorem countBump_map (options : List String) (hnd : options.Nodup) (f : String → Nat)
    (a : String) :
    (if mapHas a (options.map fun o => (o, f o)) then
       mapSet a ((mapGet a (options.map fun o => (o, f o))).getD 0 + 1)
         (options.map fun o => (o, f o))
     else options.map fun o => (o, f o))
    = options.map (fun o => (o, if o = a then f o + 1 else f o)) := by
  by_cases hmem : a ∈ options
  · have hget : mapGet a (options.map fun o => (o, f o)) = some (f a) := by
      rw [mapGet_map_self, if_pos hmem]
    have hhas : mapHas a (options.map fun o => (o, f o)) = true := by
      simp [mapHas, hget]
    rw [if_pos hhas, hget]
    simp only [Option.getD_some]
    rw [mapSet_map_mem options f a (f a + 1) hnd hmem]
    apply List.map_congr_left
    intro o ho
    by_cases h : o = a
    · subst h
      simp
    · simp [h]
  · have hget : mapGet a (options.map fun o => (o, f o)) = none := by
      rw [mapGet_map_self, if_neg hmem]
    have hhas : ¬ (mapHas a (options.map fun o => (o, f o)) = true) := by
      simp [mapHas, hget]
    rw [if_neg hhas]
    apply List.map_congr_left
    intro o ho
    have : o ≠ a := fun hEq => hmem (hEq ▸ ho)
    simp [this]

/-- The counting loop over the submitted answers adds, per option, the
number of answers equal to it. -/
theorem countFold_map (options : List String) (hnd : options.Nodup) :
    ∀ (vs : List String) (f : String → Nat),
    vs.foldl (fun m a => if mapHas a m then mapSet a ((mapGet a m).getD 0 + 1) m else m)
      (options.map fun o => (o, f o))
    = options.map (fun o => (o, f o + (vs.filter (fun a => decide (a = o))).length)) := by
  intro vs
  induction vs with
  | nil =>
    intro f
    simp
  | cons a vs ih =>
    intro f
    rw [List.foldl_cons, countBump_map options hnd f a,
      ih (fun o => if o = a then f o + 1 else f o)]
    apply List.map_congr_left
    intro o ho
    by_cases hoa : o = a
    · subst hoa
      simp [List.filter_cons]
      omega
    · have hao : ¬ a = o := fun h => hoa h.symm
      simp [List.filter_cons, hoa, hao]

/-- Seeding the counts: folding `set o 0` over distinct options onto an
accumulator with disjoint keys appends zero entries in option order. -/
theorem initFold_map : ∀ (options : List String), options.Nodup →
    ∀ acc : List (String × Nat), (∀ o ∈ options, mapHas o acc = false) →
    options.foldl (fun m o => mapSet o 0 m) acc = acc ++ options.map (fun o => (o, 0)) := by
  intro options
  induction options with
  | nil =>
    intro _ acc _
    simp
  | cons o os ih =>
    intro hnd acc hacc
    rcases List.nodup_cons.mp hnd with ⟨hnotin, hnd'⟩
    rw [List.foldl_cons, mapSet_append_of_not_has 0 (hacc o (List.mem_cons_self o os)),
      ih hnd' (acc ++ [(o, 0)]) ?_]
    · simp
    · intro o' ho'
      rw [mapHas_append]
      have h1 : mapHas o' acc = false := hacc o' (List.mem_cons_of_mem o ho')
      have hne : o ≠ o' := fun hEq => hnotin (hEq ▸ ho')
      have h2 : mapHas o' [(o, 0)] = false := by
        simp [mapHas, mapGet, hne]
      rw [h1, h2]
      rfl


/-- Modelled from the spec (§4.3), for comparison with the code's
`calculateResults`: one record per option in the original order; a
record's count is the number of submitted answers equal to its option;
its percentage is the rounded share over `answers.size`, or 0 when no
answer was submitted. -/
def specAggregate (options : List String) (answers : List (String × String)) :
    List ResultEntry :=
  options.map (fun o =>
    { option := o
      count := ((answers.map Prod.snd).filter (fun a => decide (a = o))).length
      percentage :=
        if answers.length > 0 then
          roundPct ((answers.map Prod.snd).filter (fun a => decide (a = o))).length
            answers.length
        else 0 })

/-- Claim C4 fails as stated: with the duplicated option list `["A","A"]`
the aggregator returns a single record, not one per option. -/
theorem calculateResults_dup_counterexample :
    ¬ ((calculateResults ["A", "A"] []).length = (["A", "A"] : List String).length) := by
  decide

/-- Claim C4 (amended to duplicate-free option lists): the aggregator
returns exactly one record per option, in option order, counting equal
answers, with unmatched answers kept in the denominator and percentages
rounded, all zero when there is no answer. -/
theorem calculateResults_eq_specAggregate (options : List String)
    (answers : List (String × String)) (hnd : options.Nodup) :
    calculateResults options answers = specAggregate options answers := by
  have hinit : options.foldl (fun m o => mapSet o 0 m) [] =
      options.map (fun o => (o, 0)) := by
    have h := initFold_map options hnd [] (fun o _ => rfl)
    simpa using h
  simp only [calculateResults, specAggregate]
  rw [hinit, countFold_map options hnd (answers.map Prod.snd) (fun _ => 0), List.map_map]
  apply List.map_congr_left
  intro o ho
  simp

theorem calculateResults_eq_specAggregate_witness :
    (["A", "B"] : List String).Nodup ∧
    calculateResults ["A", "B"] [("Alice", "A"), ("Bob", "C")] =
      specAggregate ["A", "B"] [("Alice", "A"), ("Bob", "C")] :=
  ⟨by decide,
   calculateResults_eq_specAggregate ["A", "B"] [("Alice", "A"), ("Bob", "C")] (by decide)⟩

/-! ### pollResults emission over traces (claim C1) -/

theorem countNum_append (n : Nat) (l1 l2 : List (Target × Msg)) :
    countNum n (l1 ++ l2) = countNum n l1 + countNum n l2 := by
  simp [countNum, List.filter_append]

/-- `endQuestion` either emits nothing, or emits exactly one
`pollResults`, numbered by the open question, and clears it. -/
theorem endQuestion_pollResults_cases (s : ServerState) (n : Nat) :
    countNum n (endQuestion s).2 = 0 ∨
    (∃ cq, s.currentQuestion = some cq ∧ cq.questionNumber = n ∧
      countNum n (endQuestion s).2 = 1 ∧ (endQuestion s).1.currentQuestion = none) := by
  rcases hcq : s.currentQuestion with _ | cq
  · left
    simp [endQuestion, hcq, countNum]
  · rcases hqa : mapGet cq.q.id s.answers with _ | qa
    · left
      simp [endQuestion, hcq, hqa, countNum]
    · by_cases hn : cq.questionNumber = n
      · right
        exact ⟨cq, rfl, hn,
          by simp [endQuestion, hcq, hqa, countNum, isPollResultsNum, List.filter_cons, hn],
          by simp [endQuestion, hcq, hqa]⟩
      · left
        simp [endQuestion, hcq, hqa, countNum, isPollResultsNum, List.filter_cons, hn]

/-- Any dispatch either emits no `pollResults` numbered `n`, or emits
exactly one, `n` being the open question's number, and closes it. -/
theorem step_pollResults_cases (s : ServerState) (e : Event) (n : Nat) :
    countNum n (step s e).2 = 0 ∨
    (∃ cq, s.currentQuestion = some cq ∧ cq.questionNumber = n ∧
      countNum n (step s e).2 = 1 ∧ (step s e).1.currentQuestion = none) := by
  cases e with
  | teacherJoin sid =>
    left
    simp [step, handleTeacherJoin, countNum, isPollResultsNum, List.filter_cons]
  | studentJoin sid name =>
    left
    rcases hcq : s.currentQuestion with _ | cq <;>
      simp [step, handleStudentJoin, hcq, countNum, isPollResultsNum, List.filter_cons]
  | startQuestion sid q =>
    left
    cases hguard : (s.currentQuestion.isSome && !(isQuestionComplete s)) <;>
      simp [step, handleStartQuestion, hguard, countNum, isPollResultsNum, List.filter_cons]
  | submitAnswer sid qid ans name =>
    have hstep : step s (Event.submitAnswer sid qid ans name) =
        handleSubmitAnswer s qid ans name := rfl
    rcases handleSubmitAnswer_cases s qid ans name with h | ⟨cq, qa, hcq, _, _, _, h | h⟩
    · left
      rw [hstep, h]
      simp [countNum]
    · left
      rw [hstep, h]
      simp [countNum]
    · by_cases hn : cq.questionNumber = n
      · right
        refine ⟨cq, hcq, hn, ?_, ?_⟩
        · rw [hstep, h]
          simp [countNum, isPollResultsNum, List.filter_cons, hn]
        · rw [hstep, h]
      · left
        rw [hstep, h]
        simp [countNum, isPollResultsNum, List.filter_cons, hn]
  | chatMessage payload =>
    left
    simp [step, countNum, isPollResultsNum, List.filter_cons]
  | kickStudent name =>
    left
    rcases hf : s.participants.find? (kickPred name) with _ | sp <;>
      simp [step, handleKickStudent, hf, countNum, isPollResultsNum, List.filter_cons]
  | disconnect sid =>
    left
    simp [step, handleDisconnect, countNum, isPollResultsNum, List.filter_cons]
  | tick =>
    cases htimer : s.timerRunning with
    | false =>
      left
      simp [step, handleTick, htimer, countNum]
    | true =>
      by_cases hexp : s.timeLeft - 1 ≤ (0 : Int)
      · have hstep1 : (step s Event.tick).2 =
            (Target.all, Msg.timeUpdate (s.timeLeft - 1)) ::
              (endQuestion { s with timeLeft := s.timeLeft - 1, timerRunning := false }).2 := by
          show (handleTick s).2 = _
          simp [handleTick, htimer, hexp]
        have hstep2 : (step s Event.tick).1 =
            (endQuestion { s with timeLeft := s.timeLeft - 1, timerRunning := false }).1 := by
          show (handleTick s).1 = _
          simp [handleTick, htimer, hexp]
        have hhead : countNum n ((Target.all, Msg.timeUpdate (s.timeLeft - 1)) ::
            (endQuestion { s with timeLeft := s.timeLeft - 1, timerRunning := false }).2) =
            countNum n (endQuestion { s with timeLeft := s.timeLeft - 1, timerRunning := false }).2 := by
          simp [countNum, List.filter_cons, isPollResultsNum]
        rcases endQuestion_pollResults_cases
            { s with timeLeft := s.timeLeft - 1, timerRunning := false } n with hz | hone
        · left
          rw [hstep1, hhead]
          exact hz
        · right
          rcases hone with ⟨cq, hcq, hn, hcount, hclear⟩
          exact ⟨cq, hcq, hn, by rw [hstep1, hhead]; exact hcount, by rw [hstep2]; exact hclear⟩
      · left
        simp [step, handleTick, htimer, hexp, countNum, List.filter_cons, isPollResultsNum]

/-- The at-most-once invariant over a run: the open question's number
never exceeds the counter and has not been published yet, no number has
been published twice, and numbers above the counter are unpublished. -/
def atMostOnceInv (s : ServerState) (outs : List (Target × Msg)) : Prop :=
  (∀ cq, s.currentQuestion = some cq →
      cq.questionNumber ≤ s.questionNumber ∧ countNum cq.questionNumber outs = 0) ∧
  (∀ n, countNum n outs ≤ 1) ∧
  (∀ n, s.questionNumber < n → countNum n outs = 0)

theorem step_atMostOnceInv (s : ServerState) (outs : List (Target × Msg)) (e : Event)
    (h : atMostOnceInv s outs) : atMostOnceInv (step s e).1 (outs ++ (step s e).2) := by
  obtain ⟨h1, h2, h3⟩ := h
  have hmono := step_questionNumber_mono s e
  refine ⟨?_, ?_, ?_⟩
  · intro cq hcq
    rcases step_shape s e with ⟨hqn, hcur | hcur⟩ | ⟨q, hqn, hcur⟩
    · rw [hcur] at hcq
      obtain ⟨ha, hb⟩ := h1 cq hcq
      refine ⟨by omega, ?_⟩
      rw [countNum_append, hb]
      rcases step_pollResults_cases s e cq.questionNumber with hz | ⟨cq', _, _, _, hnone⟩
      · rw [hz]
      · rw [hcur, hcq] at hnone
        cases hnone
    · rw [hcur] at hcq
      cases hcq
    · rw [hcur] at hcq
      cases hcq
      constructor
      · show s.questionNumber + 1 ≤ (step s e).1.questionNumber
        omega
      · show countNum (s.questionNumber + 1) (outs ++ (step s e).2) = 0
        rw [countNum_append, h3 (s.questionNumber + 1) (by omega)]
        rcases step_pollResults_cases s e (s.questionNumber + 1) with hz | ⟨cq', hcq', hn', _, _⟩
        · rw [hz]
        · obtain ⟨ha', _⟩ := h1 cq' hcq'
          omega
  · intro n
    rw [countNum_append]
    rcases step_pollResults_cases s e n with hz | ⟨cq', hcq', hn', ho', _⟩
    · have := h2 n
      omega
    · have hb := (h1 cq' hcq').2
      rw [hn'] at hb
      omega
  · intro n hn
    rw [countNum_append, h3 n (by omega)]
    rcases step_pollResults_cases s e n with hz | ⟨cq', hcq', hn', _, _⟩
    · rw [hz]
    · obtain ⟨ha', _⟩ := h1 cq' hcq'
      omega

theorem run_atMostOnceInv (es : List Event) :
    ∀ (s : ServerState) (outs : List (Target × Msg)),
    atMostOnceInv s outs → atMostOnceInv (run s es).1 (outs ++ (run s es).2) := by
  induction es with
  | nil =>
    intro s outs h
    simpa [run] using h
  | cons e es ih =>
    intro s outs h
    have h'' := ih (step s e).1 (outs ++ (step s e).2) (step_atMostOnceInv s outs e h)
    simpa [run, List.append_assoc] using h''

/-- Claim C1 (amended): every sequence number is carried by at most one
`pollResults` notification over any run from the initial state. -/
theorem pollResults_at_most_once (es : List Event) (n : Nat) :
    countNum n (run initialState es).2 ≤ 1 := by
  have hinit : atMostOnceInv initialState [] := by
    refine ⟨?_, ?_, ?_⟩
    · intro cq hcq
      exact absurd hcq (by simp [initialState])
    · intro n
      simp [countNum]
    · intro n _
      simp [countNum]
  have h := run_atMostOnceInv es initialState [] hinit
  have h2 := h.2.1 n
  simpa using h2

/-- A lower bound on every sequence number in sight: preserved by every
dispatch. -/
def numLB (k : Nat) (s : ServerState) : Prop :=
  k ≤ s.questionNumber ∧ ∀ cq, s.currentQuestion = some cq → k ≤ cq.questionNumber

theorem step_numLB (k : Nat) (s : ServerState) (e : Event) (h : numLB k s) :
    numLB k (step s e).1 := by
  obtain ⟨h1, h2⟩ := h
  have hmono := step_questionNumber_mono s e
  rcases step_shape s e with ⟨hqn, hcur⟩ | ⟨q, hqn, hcur⟩
  · refine ⟨by omega, ?_⟩
    intro cq hcq
    rcases hcur with hcur | hcur
    · rw [hcur] at hcq
      exact h2 cq hcq
    · rw [hcur] at hcq
      cases hcq
  · refine ⟨by omega, ?_⟩
    intro cq hcq
    rw [hcur] at hcq
    cases hcq
    show k ≤ s.questionNumber + 1
    omega

theorem step_countNum_lt (k : Nat) (s : ServerState) (e : Event) (n : Nat)
    (h : numLB k s) (hn : n < k) : countNum n (step s e).2 = 0 := by
  rcases step_pollResults_cases s e n with hz | ⟨cq, hcq, hnum, _, _⟩
  · exact hz
  · have := h.2 cq hcq
    omega

theorem run_countNum_lt (k : Nat) (es : List Event) : ∀ (s : ServerState) (n : Nat),
    numLB k s → n < k → countNum n (run s es).2 = 0 := by
  induction es with
  | nil =>
    intro s n _ _
    simp [run, countNum]
  | cons e es ih =>
    intro s n h hn
    have hsplit : (run s (e :: es)).2 = (step s e).2 ++ (run (step s e).1 es).2 := rfl
    rw [hsplit, countNum_append, step_countNum_lt k s e n h hn,
      ih (step s e).1 n (step_numLB k s e h) hn]

/-- The trace where question 1 becomes complete through a kick and is
then superseded by a permitted second `startQuestion`. -/
def supersededTrace : List Event :=
  [Event.teacherJoin "t", Event.studentJoin "s1" "Alice", Event.studentJoin "s2" "Bob",
   Event.startQuestion "t" qOne, Event.submitAnswer "s1" "q1" "A" "Alice",
   Event.kickStudent "Bob", Event.startQuestion "t" qTwo]

/-- Claim C1 counterexample: after `supersededTrace`, question 1 was
started yet no `pollResults` numbered 1 was ever emitted, question 2 is
open in its place, and no continuation of the session can ever emit one
— the closure procedure for question 1 runs zero times, not once. -/
theorem pollResults_can_be_lost :
    countNum 1 (run initialState supersededTrace).2 = 0 ∧
    (run initialState supersededTrace).1.currentQuestion = some ⟨qTwo, 2⟩ ∧
    neverEmitsNum (run initialState supersededTrace).1 1 := by
  refine ⟨by decide, by decide, ?_⟩
  intro es
  refine run_countNum_lt 2 es (run initialState supersededTrace).1 1 ⟨by decide, ?_⟩
    (by omega)
  intro cq hcq
  have hcur : (run initialState supersededTrace).1.currentQuestion = some ⟨qTwo, 2⟩ := by
    decide
  rw [hcur] at hcq
  cases hcq
  show (2 : Nat) ≤ 2
  omega

end PollServer
